import Mathlib

/-!
Verification of the content-extraction engine (magic-content-extractor).

This file gives a shallow embedding, in Lean 4, of the parts of the
TypeScript source that the specification claims talk about:

* the text metrics in `src/app/utils/extractor.ts` and
  `src/app/utils/similarity.ts`;
* the title resolver in `src/app/lib/extractors/TitleExtractor.ts`;
* the base extraction pipeline in `src/app/lib/BaseExtractor.ts`
  (document cleaning, content selection, validation, post-processing);
* the URL dispatch in `src/app/lib/ExtractorFactory.ts`; and
* the throwing weixin variant in `src/app/lib/extractors/WeixinExtractor.ts`.

Modelling conventions, used throughout:

* JavaScript strings are modelled as Lean `String` / `List Char`; the
  JS `length` (UTF-16 code units) is modelled as the number of code
  points, which agrees on the basic multilingual plane;
* JS IEEE-754 numbers that arise here only from integer arithmetic and
  single divisions are modelled as exact rationals (`Rat`);
* the cheerio DOM is modelled by the inductive `DNode` below; cheerio
  query results are lists of nodes in document (pre-)order;
* JS exceptions are modelled with `Except String`.
-/

namespace MCE

/-! ## JavaScript string primitives -/

/-- Characters matched by the JavaScript regexp class `\\s` (and removed
at the ends of a string by `String.prototype.trim`), by code point:
space, tab, LF, VT, FF, CR, NBSP, Ogham space, the U+2000-U+200A range,
line/paragraph separators, NNBSP, MMSP, ideographic space, BOM. -/
def jsWs (c : Char) : Bool :=
  c.toNat = 32 || c.toNat = 9 || c.toNat = 10 || c.toNat = 11 ||
  c.toNat = 12 || c.toNat = 13 || c.toNat = 160 || c.toNat = 0x1680 ||
  (0x2000 ≤ c.toNat && c.toNat ≤ 0x200a) ||
  c.toNat = 0x2028 || c.toNat = 0x2029 || c.toNat = 0x202f ||
  c.toNat = 0x205f || c.toNat = 0x3000 || c.toNat = 0xfeff

/-- One step of `collapseWs`: a whitespace character is dropped when the
next character is whitespace too (same run) and becomes a single space
otherwise. -/
def collapseWsCons (c : Char) (nextWs : Option Bool) (done : List Char) : List Char :=
  if jsWs c then
    match nextWs with
    | some true => done
    | _ => ' ' :: done
  else c :: done

/-- Model of `s.replace(/\\s+/g, ' ')`: every maximal run of whitespace
characters becomes a single space.  The run structure is detected by a
one-character lookahead. -/
def collapseWs : List Char → List Char
  | [] => []
  | c :: rest => collapseWsCons c (rest.head?.map jsWs) (collapseWs rest)

/-- Newline-like characters of the second `calculateTextLength`
normalization regexp. -/
def isNlLike (c : Char) : Bool := c.toNat = 10 || c.toNat = 9 || c.toNat = 13

/-- One step of `collapseNl`; see `collapseWsCons`. -/
def collapseNlCons (c : Char) (nextNl : Option Bool) (done : List Char) : List Char :=
  if isNlLike c then
    match nextNl with
    | some true => done
    | _ => '\n' :: done
  else c :: done

/-- Model of the replacement of newline-like runs by a single newline.
(In `calculateTextLength` this runs after `collapseWs`, which has
already removed all such characters, but we keep the step to mirror the
source.) -/
def collapseNl : List Char → List Char
  | [] => []
  | c :: rest => collapseNlCons c (rest.head?.map isNlLike) (collapseNl rest)

/-- One step of `jsSplitWs`: a whitespace character inside a run
contributes nothing; the last whitespace character of a run closes the
piece before it; other characters extend the first piece. -/
def jsSplitWsCons (c : Char) (nextWs : Option Bool) (done : List (List Char)) :
    List (List Char) :=
  if jsWs c then
    match nextWs with
    | some true => done
    | _ => [] :: done
  else
    match done with
    | [] => [[c]]
    | p :: ps => (c :: p) :: ps

/-- Model of `s.split(/\\s+/)`.  As in JavaScript, a separator run at
the start or at the end of the string contributes an empty piece, and
the empty string splits into one empty piece. -/
def jsSplitWs : List Char → List (List Char)
  | [] => [[]]
  | c :: rest => jsSplitWsCons c (rest.head?.map jsWs) (jsSplitWs rest)

/-- Model of `String.prototype.trim` on character lists. -/
def trimChars (l : List Char) : List Char :=
  ((l.dropWhile jsWs).reverse.dropWhile jsWs).reverse

/-- Model of `String.prototype.trim`. -/
def jsTrim (s : String) : String :=
  String.mk (trimChars s.toList)

/-- Substring test used to model `String.prototype.startsWith`-style
scanning: does `pat` occur at the head of `l`? -/
def startsWithChars : List Char → List Char → Bool
  | _, [] => true
  | [], _ :: _ => false
  | c :: cs, d :: ds => c = d && startsWithChars cs ds

/-- Model of `String.prototype.includes`: does `pat` occur contiguously
somewhere in `l`? -/
def hasSubChars : List Char → List Char → Bool
  | [], pat => pat.isEmpty
  | c :: cs, pat => startsWithChars (c :: cs) pat || hasSubChars cs pat

/-- Model of `s.includes(pat)` on strings. -/
def jsIncludes (s pat : String) : Bool :=
  hasSubChars s.toList pat.toList

/-! ## Text metrics — `src/app/utils/extractor.ts` (first variant) -/

/-- Chinese ideographs counted by `calculateTextLength`
(`/[一-鿿]/`). -/
def isCjk (c : Char) : Bool := '一' ≤ c && c ≤ '鿿'

/-- Japanese kana counted by `calculateTextLength`
(`/[぀-ゟ゠-ヿ]/`). -/
def isKana (c : Char) : Bool :=
  ('぀' ≤ c && c ≤ 'ゟ') || ('゠' ≤ c && c ≤ 'ヿ')

/-- Arabic characters counted by `calculateTextLength`
(`/[؀-ۿ]/`). -/
def isArabic (c : Char) : Bool := '؀' ≤ c && c ≤ 'ۿ'

/-- Embedding of `calculateTextLength(text)` from
`src/app/utils/extractor.ts` lines 10–29: empty strings count 0;
otherwise the text is whitespace-normalized and the result is the number
of `split(/\s+/)` pieces plus the number of CJK, kana and Arabic
characters. -/
def calculateTextLength (s : String) : Nat :=
  if s = "" then 0
  else
    let t := collapseNl (collapseWs s.toList)
    (jsSplitWs t).length + (t.filter isCjk).length +
      (t.filter isKana).length + (t.filter isArabic).length

/-! ## String similarity — `src/app/utils/similarity.ts` -/

/-- Lower-cased whitespace-split word list of a string, as built by
`calculateSimilarity` (`str.toLowerCase().split(/\s+/)`). -/
def wordsOf (s : String) : List String :=
  (jsSplitWs (s.toList.map Char.toLower)).map String.mk

/-- Embedding of `calculateSimilarity(str1, str2)` from
`src/app/utils/similarity.ts` lines 4–20: 1 for identical strings, 0 if
either is empty, else the Dice-style ratio
`2 * |words1 kept by membership in words2| / (|words1| + |words2|)`. -/
def calculateSimilarity (s1 s2 : String) : ℚ :=
  if s1 = s2 then 1
  else if s1 = "" || s2 = "" then 0
  else
    let w1 := wordsOf s1
    let w2 := wordsOf s2
    let common := w1.filter (fun w => w2.contains w)
    (2 * common.length : ℚ) / ((w1.length : ℚ) + (w2.length : ℚ))

/-! ## DOM model

The cheerio/domhandler DOM is modelled by `DNode`: an element node
carries a (lower-cased) tag name, an attribute list and an ordered child
list; a text node carries its character data.  Comment nodes play no
role in any claim under scrutiny and are omitted.  Documents are
represented by their root `html` element. -/

inductive DNode where
  | elem (tag : String) (attrs : List (String × String)) (children : List DNode)
  | text (data : String)
deriving Repr

mutual

/-- Decidable equality of DOM nodes (the automatic derivation does not
handle the nested `List DNode`). -/
def dnodeDecEq : (a b : DNode) → Decidable (a = b)
  | .text d1, .text d2 =>
    if h : d1 = d2 then isTrue (by rw [h])
    else isFalse (fun he => by injection he with h1; exact h h1)
  | .text _, .elem _ _ _ => isFalse (fun he => by injection he)
  | .elem _ _ _, .text _ => isFalse (fun he => by injection he)
  | .elem t1 a1 c1, .elem t2 a2 c2 =>
    if h1 : t1 = t2 then
      if h2 : a1 = a2 then
        match dnodeListDecEq c1 c2 with
        | isTrue h3 => isTrue (by rw [h1, h2, h3])
        | isFalse h3 => isFalse (fun he => by injection he with _ _ h; exact h3 h)
      else isFalse (fun he => by injection he with _ h _; exact h2 h)
    else isFalse (fun he => by injection he with h _ _; exact h1 h)

/-- Decidable equality of DOM node lists (helper of `dnodeDecEq`). -/
def dnodeListDecEq : (a b : List DNode) → Decidable (a = b)
  | [], [] => isTrue rfl
  | [], _ :: _ => isFalse (fun he => by injection he)
  | _ :: _, [] => isFalse (fun he => by injection he)
  | x :: xs, y :: ys =>
    match dnodeDecEq x y, dnodeListDecEq xs ys with
    | isTrue h1, isTrue h2 => isTrue (by rw [h1, h2])
    | isFalse h1, _ => isFalse (fun he => by injection he with h _; exact h1 h)
    | isTrue _, isFalse h2 => isFalse (fun he => by injection he with _ h; exact h2 h)

end

instance : DecidableEq DNode := dnodeDecEq

/-- Tag name of an element node. -/
def tagOf : DNode → Option String
  | .elem t _ _ => some t
  | .text _ => none

/-- Attribute lookup (`$elem.attr(name)`), first binding wins. -/
def getAttr (n : DNode) (name : String) : Option String :=
  match n with
  | .elem _ attrs _ => (attrs.find? (fun p => p.1 = name)).map (fun p => p.2)
  | .text _ => none

/-- Class list of an element (`class` attribute split on whitespace). -/
def classList (n : DNode) : List String :=
  ((jsSplitWs ((getAttr n "class").getD "").toList).map String.mk).filter
    (fun s => s ≠ "")

mutual

/-- Character data of `$node.text()`: concatenation of all text-node
data in the subtree, in document order. -/
def nodeTextChars : DNode → List Char
  | .text d => d.toList
  | .elem _ _ cs => nodesTextChars cs

/-- Text of a node list, in order (helper of `nodeTextChars`). -/
def nodesTextChars : List DNode → List Char
  | [] => []
  | n :: ns => nodeTextChars n ++ nodesTextChars ns

end

/-- Model of `$node.text()`. -/
def nodeText (n : DNode) : String :=
  String.mk (nodeTextChars n)

mutual

/-- The node itself (when an element) followed by all element
descendants, in document (pre-)order. -/
def subElems : DNode → List DNode
  | .text _ => []
  | .elem t a cs => .elem t a cs :: subElemsList cs

/-- Elements of a forest, in document (pre-)order (helper of
`subElems`). -/
def subElemsList : List DNode → List DNode
  | [] => []
  | n :: ns => subElems n ++ subElemsList ns

end

/-- Strict element descendants in document order; the domain of
`$node.find(...)`. -/
def descElems : DNode → List DNode
  | .text _ => []
  | .elem _ _ cs => subElemsList cs

/-- CSS selectors in the exact forms the source uses: a tag name, a
class, an id, an attribute equality (`[a="v"]`), attribute presence
(`[hidden]`), an attribute substring test (`[a*="v"]`), and the
`tag:empty` pseudo-selector.  Selector lists (`'a, b'`) are modelled as
Lean lists of selectors matched against each element. -/
inductive Sel where
  | tag (t : String)
  | cls (c : String)
  | idIs (i : String)
  | attrEq (name v : String)
  | attrHas (name : String)
  | attrSub (name v : String)
  | tagEmptySel (t : String)
deriving DecidableEq, Repr

/-- Does an element match a selector?  (`css-select` semantics for the
selector forms above; `:empty` matches elements with no child nodes.) -/
def matchesSel (s : Sel) (n : DNode) : Bool :=
  match n with
  | .text _ => false
  | .elem tag _ cs =>
    match s with
    | .tag t => tag = t
    | .cls c => (classList n).contains c
    | .idIs i => getAttr n "id" = some i
    | .attrEq a v => getAttr n a = some v
    | .attrHas a => (getAttr n a).isSome
    | .attrSub a v =>
      match getAttr n a with
      | some w => jsIncludes w v
      | none => false
    | .tagEmptySel t => tag = t && cs.isEmpty

/-- Does an element match any selector of a comma list? -/
def matchesAny (sels : List Sel) (n : DNode) : Bool :=
  sels.any (fun s => matchesSel s n)

/-- Model of `this.$(sel)` over a whole document: all matching elements
(including the root) in document order. -/
def queryAll (doc : DNode) (s : Sel) : List DNode :=
  (subElems doc).filter (matchesSel s)

/-- Model of `this.$(sel).get(0)` / `.first()`. -/
def queryFirst (doc : DNode) (s : Sel) : Option DNode :=
  (queryAll doc s).head?

/-- Model of `$node.find(sel)`: matching strict descendants in document
order. -/
def findAll (n : DNode) (s : Sel) : List DNode :=
  (descElems n).filter (matchesSel s)

/-- Model of `$node.find('a')`. -/
def findLinks (n : DNode) : List DNode :=
  findAll n (Sel.tag "a")

/-- Model of `$selection.text()` for a list of matched nodes:
concatenation of each match's text, in match order. -/
def selText (ns : List DNode) : List Char :=
  (ns.map nodeTextChars).flatten

/-- Embedding of the two-argument `calculateTextLength($, elem)` from
the second variant in `src/app/utils/extractor.ts` (lines 324–327):
`$elem.text().trim().length`.  This is the text-length measure the
`BaseExtractor` methods call. -/
def calculateTextLengthNode (n : DNode) : Nat :=
  (trimChars (nodeTextChars n)).length

/-! ## Link density — `calculateLinkDensity` -/

/-- Embedding of `calculateLinkDensity(node, $)` from
`src/app/utils/extractor.ts` lines 110–117: the ratio of the trimmed
concatenated text of all `<a>` descendants to the node's trimmed text;
`0` when the node has no text. -/
def calculateLinkDensity (n : DNode) : ℚ :=
  let t := trimChars (nodeTextChars n)
  let linkText := trimChars (selText (findLinks n))
  if t.isEmpty then 0
  else (linkText.length : ℚ) / (t.length : ℚ)

/-! ## Longest common substring

Embedding of `getLongestCommonSubstring(str1, str2)`
(`src/app/lib/extractors/TitleExtractor.ts`, second variant, and
`findLongestCommonSubstring` in the unnamed similarity module): the
classic dynamic program, updating `(maxLength, endIndex)` only on a
strict improvement, so ties are broken by the earliest ending index in
`str1`; the result is `str1.slice(endIndex - maxLength, endIndex)`. -/

/-- One row of the common-substring dynamic program: given the previous
row (values `dp[i-1][j]` for `j = 1..n`) and the diagonal value
`dp[i-1][j-1]`, produce the current row and its maximum. -/
def lcsRowAux (c : Char) : List Char → List Nat → Nat → (List Nat × Nat)
  | [], _, _ => ([], 0)
  | d :: ds, prev, diag =>
    let up := prev.headD 0
    let cur := if c = d then diag + 1 else 0
    match lcsRowAux c ds prev.tail up with
    | (row, m) => (cur :: row, max cur m)

/-- Outer loop of the common-substring dynamic program; `i` is the
1-based index of the current row, and `(maxLen, endIdx)` the best match
seen so far (updated only on strict improvement). -/
def lcsOuter (s2 : List Char) : List Char → List Nat → Nat → Nat → Nat → (Nat × Nat)
  | [], _, _, maxLen, endIdx => (maxLen, endIdx)
  | c :: cs, prev, i, maxLen, endIdx =>
    match lcsRowAux c s2 prev 0 with
    | (row, m) =>
      if maxLen < m then lcsOuter s2 cs row (i + 1) m i
      else lcsOuter s2 cs row (i + 1) maxLen endIdx

/-- Model of `getLongestCommonSubstring(str1, str2)`. -/
def getLongestCommonSubstring (s1 s2 : String) : String :=
  if s1 = "" || s2 = "" then (if s1 ≠ "" then s1 else s2)
  else
    match lcsOuter s2.toList s1.toList (List.replicate s2.length 0) 1 0 0 with
    | (maxLen, endIdx) => String.mk ((s1.toList.drop (endIdx - maxLen)).take maxLen)

/-! ## Title resolver — `src/app/lib/extractors/TitleExtractor.ts`
(first variant, the class every `BaseExtractor` instantiates) -/

/-- Characters treated as separators by the `cleanTitle` regexp
`/\s*[|\-–_]\s*.+$/`. -/
def sepChar (c : Char) : Bool :=
  c = '|' || c = '-' || c = '–' || c = '_'

/-- Index of the first separator character that still has at least one
character after it (the only positions at which `/\s*[|\-–_]\s*.+$/` can
match); `i` is the index of the list head in the original string. -/
def firstSepIdx : List Char → Nat → Option Nat
  | [], _ => none
  | [_], _ => none
  | c :: d :: rest, i =>
    if sepChar c then some i else firstSepIdx (d :: rest) (i + 1)

/-- Model of `title.replace(/\s*[|\-–_]\s*.+$/, '')`: cut the string at
the first qualifying separator, together with the whitespace run
immediately before it. -/
def sepCut (l : List Char) : List Char :=
  match firstSepIdx l 0 with
  | none => l
  | some k => ((l.take k).reverse.dropWhile jsWs).reverse

/-- Opening brackets of the `cleanTitle` bracket regexp. -/
def openB (c : Char) : Bool := c = '(' || c = '[' || c = Char.ofNat 123

/-- Closing brackets of the `cleanTitle` bracket regexp. -/
def closeB (c : Char) : Bool := c = ')' || c = ']' || c = Char.ofNat 125

/-- Index of the first character satisfying `p`, or `none`. -/
def firstIdxP (p : Char → Bool) : List Char → Nat → Option Nat
  | [], _ => none
  | c :: rest, i => if p c then some i else firstIdxP p rest (i + 1)

/-- Model of `title.replace(/\s*[([{].*?[)\]}]\s*/g, ' ')` (fueled by
the input length to keep the recursion structural): each leftmost match
— optional whitespace, an opening bracket, a lazily matched body up to
the first closing bracket, then trailing whitespace — becomes a single
space, and scanning resumes after the match. -/
def bracketCutF : Nat → List Char → List Char
  | 0, l => l
  | _ + 1, [] => []
  | fuel + 1, l =>
    match firstIdxP openB l 0 with
    | none => l
    | some k =>
      let afterOpen := l.drop (k + 1)
      match firstIdxP closeB afterOpen 0 with
      | none => l
      | some m =>
        let pre := ((l.take k).reverse.dropWhile jsWs).reverse
        let rest := (afterOpen.drop (m + 1)).dropWhile jsWs
        pre ++ ' ' :: bracketCutF fuel rest

/-- Entry point of the bracket-removal step. -/
def bracketCut (l : List Char) : List Char :=
  bracketCutF (l.length + 1) l

/-- Model of `title.replace(/<[^>]+>/g, '')` (fueled by the input
length): a `<` followed by at least one non-`>` character and a `>` is
removed; a `<` with no such closing `>` is kept. -/
def tagStripF : Nat → List Char → List Char
  | 0, l => l
  | _ + 1, [] => []
  | fuel + 1, c :: rest =>
    if c = '<' then
      match firstIdxP (fun d => d = '>') rest 0 with
      | some 0 => c :: tagStripF fuel rest
      | some m => tagStripF fuel (rest.drop (m + 1))
      | none => c :: tagStripF fuel rest
    else c :: tagStripF fuel rest

/-- Entry point of the markup-removal step. -/
def tagStrip (l : List Char) : List Char :=
  tagStripF (l.length + 1) l

/-- Unicode general-category test `\p{L}|\p{N}|\p{P}|\p{Z}` from the
`cleanTitle` filter, spelled out on the character repertoire this
development uses: ASCII, the en dash, and the CJK/kana/Arabic ranges of
`calculateTextLength`.  Note that the ASCII characters
`$ + < = > ^ ~` and the backquote and the vertical bar are Unicode
symbols (category S), not punctuation, and are removed, as are control
characters. -/
def keepCat (c : Char) : Bool :=
  c = ' ' ||
  ('0' ≤ c && c ≤ '9') || ('a' ≤ c && c ≤ 'z') || ('A' ≤ c && c ≤ 'Z') ||
  [ '!', '"', '#', '%', '&', Char.ofNat 39, '(', ')', '*', ',', '-', '.',
    '/', ':', ';', '?', '@', '[', '\\', ']', '_',
    Char.ofNat 123, Char.ofNat 125 ].contains c ||
  c = '–' ||
  isCjk c || isKana c || isArabic c

/-- Embedding of `cleanTitle(title)` from
`src/app/lib/extractors/TitleExtractor.ts` lines 122–136: collapse
whitespace, strip a separator and everything after it, blank out
bracketed segments, strip markup, drop characters outside
`\p{L}\p{N}\p{P}\p{Z}`, and trim. -/
def cleanTitle (s : String) : String :=
  String.mk (trimChars ((tagStrip (bracketCut (sepCut (collapseWs s.toList)))).filter keepCat))

/-- Compound selector `meta[x="y"]` used by `extractFromMeta`. -/
def matchesMetaSel (t a v : String) (n : DNode) : Bool :=
  (tagOf n = some t : Bool) && (getAttr n a = some v : Bool)

/-- The ordered meta selector list of `extractFromMeta` (lines 36–43):
`og:title`, `twitter:title`, `title`, `article:title`,
`application-name`, `og:site_name`. -/
def metaSelectors : List (String × String) :=
  [("property", "og:title"), ("name", "twitter:title"), ("name", "title"),
   ("property", "article:title"), ("name", "application-name"),
   ("property", "og:site_name")]

/-- Embedding of `extractFromMeta()` (lines 35–51): the first selector
whose first match carries a non-empty trimmed `content` attribute wins. -/
def extractFromMeta (doc : DNode) : List (String × String) → String
  | [] => ""
  | (a, v) :: rest =>
    match ((subElems doc).filter (matchesMetaSel "meta" a v)).head? with
    | none => extractFromMeta doc rest
    | some e =>
      match getAttr e "content" with
      | none => extractFromMeta doc rest
      | some c => if jsTrim c = "" then extractFromMeta doc rest else jsTrim c

/-- Embedding of `extractFromTitle()` (lines 56–58):
`$('title').first().text().trim()`. -/
def extractFromTitle (doc : DNode) : String :=
  match queryFirst doc (Sel.tag "title") with
  | some n => jsTrim (nodeText n)
  | none => ""

/-- The `h1, h2, h3` texts collected by `extractFromHeadings`
(lines 68–72): trimmed, empty ones skipped, document order, duplicates
kept. -/
def headingsOf (doc : DNode) : List String :=
  (((subElems doc).filter
      (matchesAny [Sel.tag "h1", Sel.tag "h2", Sel.tag "h3"])).map
    (fun n => jsTrim (nodeText n))).filter (fun s => s ≠ "")

/-- Insertion of `x` into a list sorted by `key` descending: `x` lands
after every element of greater-or-equal key, so an element inserted
later never overtakes an earlier tie. -/
def insertDescBy (key : String → ℚ) (x : String) : List String → List String
  | [] => [x]
  | y :: ys => if key y < key x then x :: y :: ys else y :: insertDescBy key x ys

/-- Stable descending sort by `key`, the model of
`headings.sort((a, b) => similarityB - similarityA)` (stable since
ES2019): the elements are inserted left to right, each after all
earlier elements of greater-or-equal key, so tied elements keep their
original order. -/
def sortDescBy (key : String → ℚ) (l : List String) : List String :=
  l.foldl (fun acc x => insertDescBy key x acc) []

/-- Embedding of `extractFromHeadings()` (lines 63–92): collect the
`h1`–`h3` texts; with a non-empty page title, sort them by similarity to
it (descending, stably) and return the best; otherwise prefer the first
`h1`, then the first heading. -/
def extractFromHeadings (doc : DNode) : String :=
  let pageTitle := extractFromTitle doc
  let headings := headingsOf doc
  if headings.isEmpty then ""
  else if pageTitle ≠ "" then
    (sortDescBy (fun h => calculateSimilarity h pageTitle) headings).headD ""
  else
    let h1Text :=
      match queryFirst doc (Sel.tag "h1") with
      | some n => jsTrim (nodeText n)
      | none => ""
    if h1Text ≠ "" then h1Text else headings.headD ""

/-- Selectors of `extractFromOtherTags()` (lines 98–109), each given as
a predicate on an element together with its ancestor list (innermost
first), covering the three descendant-combinator entries. -/
def otherTagPreds : List (DNode → List DNode → Bool) :=
  [ fun n _ => matchesSel (Sel.cls "article-title") n,
    fun n _ => matchesSel (Sel.cls "post-title") n,
    fun n _ => matchesSel (Sel.cls "entry-title") n,
    fun n _ => matchesSel (Sel.cls "title") n,
    fun n _ => matchesSel (Sel.idIs "title") n,
    fun n anc => matchesSel (Sel.tag "h1") n &&
      anc.any (matchesSel (Sel.cls "article-header")),
    fun n anc => matchesSel (Sel.tag "h1") n &&
      anc.any (matchesSel (Sel.cls "post-header")),
    fun n anc => matchesSel (Sel.tag "h1") n &&
      anc.any (matchesSel (Sel.cls "entry-header")),
    fun n _ => matchesSel (Sel.attrEq "itemprop" "headline") n,
    fun n _ => matchesSel (Sel.attrEq "itemprop" "name") n ]

mutual

/-- Elements with their ancestor lists (innermost ancestor first), in
document order. -/
def subElemsCtx : List DNode → DNode → List (DNode × List DNode)
  | _, .text _ => []
  | anc, .elem t a cs =>
    (DNode.elem t a cs, anc) :: subElemsCtxList (DNode.elem t a cs :: anc) cs

/-- Context-carrying traversal of a forest (helper of `subElemsCtx`). -/
def subElemsCtxList : List DNode → List DNode → List (DNode × List DNode)
  | _, [] => []
  | anc, n :: ns => subElemsCtx anc n ++ subElemsCtxList anc ns

end

/-- Embedding of `extractFromOtherTags()` (lines 97–117): the first
selector whose first match has non-empty trimmed text wins. -/
def extractFromOtherTags (doc : DNode) : List (DNode → List DNode → Bool) → String
  | [] => ""
  | p :: rest =>
    match ((subElemsCtx [] doc).filter (fun ca => p ca.1 ca.2)).head? with
    | none => extractFromOtherTags doc rest
    | some ca =>
      let t := jsTrim (nodeText ca.1)
      if t = "" then extractFromOtherTags doc rest else t

/-- Embedding of `TitleExtractor.extract($)` from
`src/app/lib/extractors/TitleExtractor.ts` lines 10–30: meta tags, then
`h1`–`h3` headings, then the `title` tag, then the fallback selectors,
the first non-empty result being passed through `cleanTitle`. -/
def titleExtract (doc : DNode) : String :=
  let metaTitle := extractFromMeta doc metaSelectors
  if metaTitle ≠ "" then cleanTitle metaTitle
  else
    let hTitle := extractFromHeadings doc
    if hTitle ≠ "" then cleanTitle hTitle
    else
      let pageTitle := extractFromTitle doc
      if pageTitle ≠ "" then cleanTitle pageTitle
      else
        let otherTitle := extractFromOtherTags doc otherTagPreds
        if otherTitle ≠ "" then cleanTitle otherTitle else ""

/-! ## Extraction options — `ExtractorOptions` with the constructor
defaults of `BaseExtractor` (`src/app/lib/BaseExtractor.ts` lines
13–23). -/

structure XOpts where
  minTextLength : Nat
  retryLength : Nat
  includeComments : Bool
  minScore : Int
deriving DecidableEq, Repr

/-- The `BaseExtractor` constructor defaults:
`minTextLength 25, retryLength 250, includeComments false, minScore 20`. -/
def defaultOpts : XOpts :=
  { minTextLength := 25, retryLength := 250, includeComments := false, minScore := 20 }

/-! ## JavaScript half-comparisons

The source repeatedly tests `a / b > 0.5` and `a / b < 0.5` where `a`
and `b` are nonnegative integer text lengths.  For `b > 0` these are the
integer tests `b < 2a` and `2a < b`; the integer tests also agree with
JavaScript at the corner cases: `a / 0` is `Infinity` for `a > 0`
(greater than `0.5`, not less) and `0 / 0` is `NaN` (every comparison
false).  Using the integer form keeps every pipeline function
kernel-computable. -/

/-- JS `a / b > 0.5` on nonnegative integers. -/
def jsHalfLt (a b : Nat) : Bool := b < 2 * a

/-- JS `a / b < 0.5` on nonnegative integers. -/
def jsLtHalf (a b : Nat) : Bool := 2 * a < b

/-! ## Selector tables — `src/app/types/extractor.ts` -/

/-- `CONTENT_SELECTORS` (lines 44–78), in order. -/
def contentSelectors : List Sel :=
  [ .tag "article", .cls "post", .cls "entry", .cls "post-text",
    .cls "post-body", .cls "post-content", .cls "article-text",
    .cls "article-body", .cls "article-content",
    .attrEq "itemprop" "articleBody", .cls "entry-content",
    .cls "page-content", .cls "text-content",
    .cls "blog-post", .cls "blog-entry", .cls "blog-content",
    .cls "news-content", .cls "news-text", .cls "news-article",
    .tag "main", .idIs "main-content", .cls "main-content",
    .cls "content-body", .cls "content-text", .attrEq "role" "main",
    .attrEq "itemprop" "text", .attrEq "itemprop" "description",
    .attrEq "property" "og:description" ]

/-- `NOISE_SELECTORS` (lines 81–145), in order. -/
def noiseSelectors : List Sel :=
  [ .cls "comment", .cls "comments", .idIs "comments", .cls "comment-list",
    .cls "comment-content",
    .cls "header", .cls "footer", .cls "sidebar", .cls "widget",
    .cls "navigation", .cls "nav", .cls "navbar", .cls "menu",
    .cls "breadcrumb",
    .cls "advertisement", .cls "ad", .cls "ads", .cls "adsense",
    .attrSub "id" "ad-", .attrSub "class" "ad-",
    .cls "social", .cls "share", .cls "sharing", .cls "social-share",
    .cls "related", .cls "recommended", .cls "popular", .cls "trending",
    .cls "author-info", .cls "author-bio", .cls "author-meta",
    .cls "meta", .cls "metadata", .cls "post-meta", .cls "article-meta",
    .cls "tags", .cls "categories", .cls "taxonomy",
    .cls "subscribe", .cls "newsletter", .cls "notification",
    .cls "copyright", .cls "license",
    .cls "modal", .cls "overlay", .cls "popup",
    .attrSub "style" "display: none", .attrSub "style" "visibility: hidden",
    .attrHas "hidden", .cls "hidden" ]

/-- Media selectors `img, video, iframe` used by `shouldKeepNode` and
`cleanEmptyNodes`. -/
def mediaSels : List Sel := [.tag "img", .tag "video", .tag "iframe"]

/-- Does the node have a strict `img`/`video`/`iframe` descendant
(`$node.find('img, video, iframe').length > 0`)? -/
def hasMediaDesc (n : DNode) : Bool :=
  (descElems n).any (matchesAny mediaSels)

/-! ## Base extractor — `src/app/lib/BaseExtractor.ts` (first variant) -/

/-- Embedding of `shouldKeepNode(node)` (lines 97–115): keep a
noise-matching node if it contains media, or if its trimmed text is
longer than `minTextLength` with the text of its `<a>` descendants
making up less than half of it. -/
def shouldKeepNode (opts : XOpts) (n : DNode) : Bool :=
  if hasMediaDesc n then true
  else
    let t := trimChars (nodeTextChars n)
    if opts.minTextLength < t.length then
      jsLtHalf (trimChars (selText (findLinks n))).length t.length
    else false

/-- Link text length used by `removeNode`/`isValidContent`: the trimmed
text length of the first `<a>` descendant (`$elem.find('a').get(0)`), or
`0` if there is none. -/
def firstLinkLength (n : DNode) : Nat :=
  match (findLinks n).head? with
  | some a => calculateTextLengthNode a
  | none => 0

/-- The removal condition of `removeNode(node)` (lines 214–238): remove
when the first-link density exceeds `0.5` or the text is shorter than
`minTextLength`.  (The guard `droppedNodes.has(node)` is supplied by the
caller.) -/
def removeNodeCond (opts : XOpts) (n : DNode) : Bool :=
  jsHalfLt (firstLinkLength n) (calculateTextLengthNode n) ||
    calculateTextLengthNode n < opts.minTextLength

mutual

/-- One noise-selector pass (`this.$(selector).each(...)` inside
`removeNoiseNodes`, lines 79–88): every matching element that
`shouldKeepNode` does not protect and `removeNode` decides to drop is
removed with its subtree; dropped (top-most) nodes are collected.  The
predicate `rem` packs the whole per-node decision; decisions depend only
on a node's own subtree, so the single traversal matches cheerio's
snapshot iteration. -/
def noisePrune (rem : DNode → Bool) : DNode → (Option DNode × List DNode)
  | .text d => (some (.text d), [])
  | .elem t a cs =>
    if rem (.elem t a cs) then (none, [DNode.elem t a cs])
    else
      match noisePruneList rem cs with
      | (cs2, dr) => (some (.elem t a cs2), dr)

/-- Forest version of `noisePrune`. -/
def noisePruneList (rem : DNode → Bool) : List DNode → (List DNode × List DNode)
  | [] => ([], [])
  | n :: ns =>
    match noisePrune rem n, noisePruneList rem ns with
    | (none, dr1), (ns2, dr2) => (ns2, dr1 ++ dr2)
    | (some m, dr1), (ns2, dr2) => (m :: ns2, dr1 ++ dr2)

end

mutual

/-- Unconditional removal of matching element subtrees, used for the
hidden-element and `:empty` remove calls and for `cleanEmptyNodes`.  The
condition is evaluated against each node's original subtree, matching
cheerio's snapshot iteration. -/
def pruneIf (cond : DNode → Bool) : DNode → Option DNode
  | .text d => some (.text d)
  | .elem t a cs =>
    if cond (.elem t a cs) then none
    else some (.elem t a (pruneIfList cond cs))

/-- Forest version of `pruneIf`. -/
def pruneIfList (cond : DNode → Bool) : List DNode → List DNode
  | [] => []
  | n :: ns =>
    match pruneIf cond n with
    | none => pruneIfList cond ns
    | some m => m :: pruneIfList cond ns

end

/-- The per-node removal decision of one noise-selector pass;
`dropCheck` models `this.droppedNodes.has(node)`. -/
def noiseRemDecision (opts : XOpts) (dropCheck : DNode → Bool) (s : Sel)
    (n : DNode) : Bool :=
  matchesSel s n && !shouldKeepNode opts n && !dropCheck n && removeNodeCond opts n

/-- All noise-selector passes in order, threading the dropped-node
accumulator (`staleHas` models membership of nodes dropped by earlier
calls seen through `this.droppedNodes`). -/
def noisePasses (opts : XOpts) (staleHas : DNode → Bool) :
    List Sel → Option DNode → List DNode → (Option DNode × List DNode)
  | [], doc, cur => (doc, cur)
  | s :: rest, doc, cur =>
    match doc with
    | none => noisePasses opts staleHas rest none cur
    | some d =>
      match noisePrune
        (noiseRemDecision opts (fun n => staleHas n || cur.contains n) s) d with
      | (d2, dr) => noisePasses opts staleHas rest d2 (cur ++ dr)

/-- The two unconditional hidden-element selectors of
`removeNoiseNodes`. -/
def hiddenSels : List Sel :=
  [.attrSub "style" "display: none", .attrSub "style" "visibility: hidden"]

/-- The `div:empty, p:empty, span:empty` selector list of
`removeNoiseNodes`. -/
def emptySels : List Sel :=
  [.tagEmptySel "div", .tagEmptySel "p", .tagEmptySel "span"]

/-- Embedding of `removeNoiseNodes()` (lines 79–95): the conditional
noise passes, then unconditional removal of hidden elements, then of
empty `div`/`p`/`span` elements. -/
def removeNoiseNodes (opts : XOpts) (staleHas : DNode → Bool) (doc : DNode) :
    Option DNode × List DNode :=
  match noisePasses opts staleHas noiseSelectors (some doc) [] with
  | (d2, dr) =>
    ((d2.bind (pruneIf (matchesAny hiddenSels))).bind
      (pruneIf (matchesAny emptySels)), dr)

/-- Embedding of `cleanEmptyNodes()` (lines 117–128): every element with
no non-whitespace text and no media descendant is removed. -/
def cleanEmptyNodes (doc : DNode) : Option DNode :=
  pruneIf (fun n => (trimChars (nodeTextChars n)).isEmpty && !hasMediaDesc n) doc

/-- Phase one of `normalizeContent()` (lines 133–140): every text node's
data is whitespace-collapsed and trimmed. -/
def collapseTrim (s : String) : String :=
  String.mk (trimChars (collapseWs s.toList))

mutual

/-- Recursive application of the text-data normalization to a node. -/
def collapseTexts : DNode → DNode
  | .text d => .text (collapseTrim d)
  | .elem t a cs => .elem t a (collapseTextsList cs)

/-- Forest version of `collapseTexts`. -/
def collapseTextsList : List DNode → List DNode
  | [] => []
  | n :: ns => collapseTexts n :: collapseTextsList ns

end

mutual

/-- Phase two of `normalizeContent()` (lines 142–149), acting on one
child list.  The source iterates a snapshot of `$('*').contents()`,
merging a text node with its live `next` sibling and removing the
latter; because `domutils.removeElement` leaves the removed node's own
`next` pointer intact, the removed node keeps merging and removing in
turn.  Net effect on a maximal run of `k ≥ 2` adjacent text nodes: one
text node holding `(first + ' ' + second).trim()` survives and the data
of the remaining `k - 2` is discarded. -/
def mergeAdjacentTexts : List DNode → List DNode
  | [] => []
  | [n] => [n]
  | .text d1 :: .text d2 :: rest =>
    .text (String.mk (trimChars (d1.toList ++ ' ' :: d2.toList))) :: skipTexts rest
  | n :: rest => n :: mergeAdjacentTexts rest

/-- Skip the cascade-destroyed tail of a text-node run (helper of
`mergeAdjacentTexts`). -/
def skipTexts : List DNode → List DNode
  | [] => []
  | .text _ :: rest => skipTexts rest
  | n :: rest => n :: mergeAdjacentTexts rest

end

mutual

/-- Recursive application of the adjacent-text merge to every element's
child list. -/
def mergeTexts : DNode → DNode
  | .text d => .text d
  | .elem t a cs => .elem t a (mergeAdjacentTexts (mergeTextsList cs))

/-- Forest version of `mergeTexts`. -/
def mergeTextsList : List DNode → List DNode
  | [] => []
  | n :: ns => mergeTexts n :: mergeTextsList ns

end

/-- Embedding of `normalizeContent()` (lines 130–150): whitespace
normalization of every text node, then the adjacent-text-node merge. -/
def normalizeContent (doc : DNode) : DNode :=
  mergeTexts (collapseTexts doc)

/-- Embedding of `cleanDocument()` (lines 70–77): noise removal, empty
node cleanup, content normalization.  The result is `none` when even the
root element was removed; the second component collects the dropped
nodes recorded by `removeNode`. -/
def cleanDocumentSt (opts : XOpts) (staleHas : DNode → Bool) (doc : DNode) :
    Option DNode × List DNode :=
  match removeNoiseNodes opts staleHas doc with
  | (d2, dr) => ((d2.bind cleanEmptyNodes).map normalizeContent, dr)

/-- The document cleaner as a pure document transformation (a fresh
extractor has an empty `droppedNodes` set, so the membership guard in
`removeNode` finds nothing). -/
def cleanDocument (opts : XOpts) (doc : DNode) : Option DNode :=
  (cleanDocumentSt opts (fun _ => false) doc).1

/-- Tags excluded by the base `isValidContent` (lines 190–194). -/
def excludeTags : List String := ["nav", "header", "footer", "aside"]

/-- Embedding of the base `isValidContent(element)`
(`src/app/lib/BaseExtractor.ts` lines 182–212): requires a tag name
outside the exclusion set, trimmed text length at least
`minTextLength`, and first-link density at most `0.5`.  No score is
computed here. -/
def isValidContent (opts : XOpts) (n : DNode) : Bool :=
  match tagOf n with
  | none => false
  | some tag =>
    if excludeTags.contains tag then false
    else
      let textLength := calculateTextLengthNode n
      if textLength < opts.minTextLength then false
      else if jsHalfLt (firstLinkLength n) textLength then false
      else true

/-- First selector of a list whose first match passes `isValidContent`
(the two selector loops of `extractMainContent`, lines 156–172). -/
def firstValidBySelectors (opts : XOpts) (doc : DNode) : List Sel → Option DNode
  | [] => none
  | s :: rest =>
    match queryFirst doc s with
    | some e =>
      if isValidContent opts e then some e
      else firstValidBySelectors opts doc rest
    | none => firstValidBySelectors opts doc rest

/-- Embedding of `extractMainContent()` (lines 156–176): try the
variant's custom selectors, then the generic `CONTENT_SELECTORS`; when
nothing passes `isValidContent`, fall back to the `body` element. -/
def extractMainContent (opts : XOpts) (custom : List Sel) (doc : DNode) :
    Option DNode :=
  match firstValidBySelectors opts doc custom with
  | some e => some e
  | none =>
    match firstValidBySelectors opts doc contentSelectors with
    | some e => some e
    | none => queryFirst doc (Sel.tag "body")

/-- JS `href?.startsWith('http')`. -/
def jsStartsWith (s pat : String) : Bool :=
  startsWithChars s.toList pat.toList

/-- Replace (or add) one attribute binding. -/
def setAttrList : List (String × String) → String → String → List (String × String)
  | [], k, v => [(k, v)]
  | (k1, v1) :: rest, k, v =>
    if k1 = k then (k, v) :: rest else (k1, v1) :: setAttrList rest k v

/-- Attribute rewriting of `postProcess` (lines 247–267): `img` elements
with a falsy `src` but a `data-src` get `src` set from it; `a` elements
whose `href` starts with `http` get `target="_blank"` and
`rel="noopener noreferrer"`. -/
def postFixAttrs (t : String) (a : List (String × String)) :
    List (String × String) :=
  if t = "img" then
    match getAttr (.elem t a []) "src", getAttr (.elem t a []) "data-src" with
    | none, some ds => setAttrList a "src" ds
    | some "", some ds => setAttrList a "src" ds
    | _, _ => a
  else if t = "a" then
    match getAttr (.elem t a []) "href" with
    | some h =>
      if jsStartsWith h "http" then
        setAttrList (setAttrList a "target" "_blank") "rel" "noopener noreferrer"
      else a
    | none => a
  else a

mutual

/-- Recursive application of `postFixAttrs` to the strict descendants of
the selected node (the `find('img')`/`find('a')` loops). -/
def postFixTree : DNode → DNode
  | .text d => .text d
  | .elem t a cs => .elem t (postFixAttrs t a) (postFixTreeList cs)

/-- Forest version of `postFixTree`. -/
def postFixTreeList : List DNode → List DNode
  | [] => []
  | n :: ns => postFixTree n :: postFixTreeList ns

end

/-- Embedding of `postProcess(element)` (lines 240–268): remove empty
descendant elements (`find('*:empty').remove()`), then rewrite image and
link attributes.  Only strict descendants are affected. -/
def postProcess (n : DNode) : DNode :=
  match n with
  | .text d => .text d
  | .elem t a cs =>
    .elem t a (postFixTreeList
      (pruneIfList (fun m =>
        match m with
        | .elem _ _ mcs => mcs.isEmpty
        | .text _ => false) cs))

/-- The record assembled by `extract` (lines 35–65); the sanitized HTML
fragment is represented by the post-processed main node itself rather
than its serialization. -/
structure PipeResult where
  title : String
  content : Option DNode
  textContent : String
deriving DecidableEq, Repr

/-- Title extraction over a possibly emptied document (an empty cheerio
document yields no matches, hence the empty string). -/
def titleExtractO : Option DNode → String
  | some d => titleExtract d
  | none => ""

/-- Main-content selection over a possibly emptied document. -/
def extractMainContentO (opts : XOpts) (custom : List Sel) :
    Option DNode → Option DNode
  | some d => extractMainContent opts custom d
  | none => none

/-- Embedding of `BaseExtractor.extract(html, url)` (lines 35–65) from
the parsed document: clean, resolve the title, select the main content,
post-process it, and assemble the result.  The second component lists
the nodes recorded in `droppedNodes` during the call. -/
def baseExtract (opts : XOpts) (custom : List Sel) (staleHas : DNode → Bool)
    (doc : DNode) : PipeResult × List DNode :=
  match cleanDocumentSt opts staleHas doc with
  | (cdoc, dropped) =>
    let title := titleExtractO cdoc
    let mainContent := extractMainContentO opts custom cdoc
    let post := mainContent.map postProcess
    let textContent :=
      match post with
      | some n => jsTrim (nodeText n)
      | none => ""
    (⟨title, post, textContent⟩, dropped)

/-! ## Extractor instance state — `droppedNodes` persistence

`BaseExtractor` keeps `droppedNodes : Set<CheerioNode>` as an instance
field that is never cleared, and the factory caches extractor
instances, so the set persists across `extract` calls.  Object identity
of a node is modelled as the pair (index of the `extract` call that
created its document, node value); this is exact as long as one call
does not drop two structurally identical nodes. -/

structure XState where
  calls : Nat
  dropped : List (Nat × DNode)
deriving DecidableEq, Repr

/-- The state of a freshly constructed extractor. -/
def initState : XState := ⟨0, []⟩

/-- States reachable by real call sequences: every dropped node was
created by an earlier call. -/
def WFState (σ : XState) : Prop :=
  ∀ e ∈ σ.dropped, e.1 < σ.calls

/-- One `extract` call on an extractor instance with persistent state:
the membership test `droppedNodes.has(node)` sees the persisted
entries; nodes dropped by this call are appended, tagged with the
current call index. -/
def extractCall (opts : XOpts) (custom : List Sel) (σ : XState) (doc : DNode) :
    PipeResult × XState :=
  let r := baseExtract opts custom
    (fun n => decide ((σ.calls, n) ∈ σ.dropped)) doc
  (r.1, ⟨σ.calls + 1, σ.dropped ++ r.2.map (fun n => (σ.calls, n))⟩)

/-! ## Weixin variant — `src/app/lib/extractors/WeixinExtractor.ts`
(first variant) -/

/-- The weixin constructor options: `minTextLength 100, minScore 30`
over the base defaults. -/
def weixinOpts : XOpts :=
  { minTextLength := 100, retryLength := 250, includeComments := false, minScore := 30 }

/-- Embedding of `WeixinExtractor.extract(html, url)` (lines 18–78).
The decisive behavior for the claims is the guard of lines 29–33: when
the document has no `#img-content` element the method throws
`无法找到微信文章内容区域`.  On success the source cleans the document
and post-processes the held content-area node; that branch is summarized
by re-querying the cleaned document for the content area (the held
mutable reference) and post-processing it; the weixin metadata fields
play no role in any claim and are omitted. -/
def weixinExtract (doc : DNode) : Except String PipeResult :=
  match queryFirst doc (Sel.idIs "img-content") with
  | none => Except.error "无法找到微信文章内容区域"
  | some _ =>
    let cleaned := cleanDocument weixinOpts doc
    let title := titleExtractO cleaned
    let area :=
      match cleaned with
      | some d => queryFirst d (Sel.idIs "img-content")
      | none => none
    let post := area.map postProcess
    Except.ok
      ⟨title, post,
        match post with
        | some n => jsTrim (nodeText n)
        | none => ""⟩

/-! ## URL dispatch — `src/app/lib/ExtractorFactory.ts`
(second variant, `getExtractorByUrl`, lines 96–109) -/

inductive WebsiteType where
  | article
  | forum
  | weixin
deriving DecidableEq, Repr

/-- Embedding of `getExtractorByUrl(url)`: weixin for URLs containing
`mp.weixin.qq.com`, else forum for URLs containing `forum`, `bbs` or
`thread`, else article. -/
def getExtractorByUrl (url : String) : WebsiteType :=
  if jsIncludes url "mp.weixin.qq.com" then WebsiteType.weixin
  else if jsIncludes url "forum" || jsIncludes url "bbs" || jsIncludes url "thread" then
    WebsiteType.forum
  else WebsiteType.article

/-- The dispatch rule exactly as the claim states it (written from the
spec wording, for comparison with `getExtractorByUrl`): forum-like
patterns additionally include `topic`, `tid=`, `pid=` and `fid=`. -/
def claimDispatch (url : String) : WebsiteType :=
  if jsIncludes url "mp.weixin.qq.com" then WebsiteType.weixin
  else if ["forum", "bbs", "thread", "topic", "tid=", "pid=", "fid="].any
      (fun p => jsIncludes url p) then WebsiteType.forum
  else WebsiteType.article

/-- The dispatch rule as amended: only `forum`, `bbs` and `thread` are
forum patterns. -/
def amendedDispatch (url : String) : WebsiteType :=
  if jsIncludes url "mp.weixin.qq.com" then WebsiteType.weixin
  else if ["forum", "bbs", "thread"].any (fun p => jsIncludes url p) then
    WebsiteType.forum
  else WebsiteType.article

/-! ## Enhanced scoring — second `BaseExtractor` variant in
`src/app/lib/extractors/TitleExtractor.ts` (lines 144–176 weight tables,
387–433 `calculateNodeScore`, 462–496 `isValidContent`) -/

/-- `TAG_WEIGHTS` (lines 144–155). -/
def tagWeight (t : String) : Int :=
  if t = "article" then 10
  else if t = "main" then 8
  else if t = "section" then 6
  else if t = "div" then 4
  else if t = "p" then 3
  else if t = "pre" then 3
  else if t = "code" then 3
  else if t = "blockquote" then 2
  else if t = "figure" then 2
  else if t = "table" then 2
  else 0

/-- `POSITIVE_CLASS_WEIGHTS` (lines 158–165). -/
def posClassWeight (c : String) : Int :=
  if c = "article" then 8
  else if c = "content" then 8
  else if c = "post" then 6
  else if c = "entry" then 6
  else if c = "text" then 4
  else if c = "body" then 4
  else 0

/-- `NEGATIVE_CLASS_WEIGHTS` (lines 168–176). -/
def negClassWeight (c : String) : Int :=
  if c = "sidebar" then -8
  else if c = "comment" then -6
  else if c = "advertisement" then -8
  else if c = "ad" then -8
  else if c = "nav" then -6
  else if c = "footer" then -6
  else if c = "header" then -4
  else 0

/-- Class names as `calculateNodeScore` builds them:
`$node.attr('class')?.split(/\s+/) || []`, lower-cased. -/
def scoreClassNames (n : DNode) : List String :=
  match getAttr n "class" with
  | some c => (jsSplitWs (c.toList.map Char.toLower)).map String.mk
  | none => []

/-- Count of `find(sel)` matches among strict descendants. -/
def countDesc (n : DNode) (sels : List Sel) : Nat :=
  ((descElems n).filter (matchesAny sels)).length

/-- Heading selectors `h1, h2, h3, h4, h5, h6`. -/
def headingSels : List Sel :=
  [.tag "h1", .tag "h2", .tag "h3", .tag "h4", .tag "h5", .tag "h6"]

/-- Embedding of the enhanced `calculateNodeScore(node)` (lines
387–433): tag weight, class weights, text-length points
(`min(floor(textLength/100), 10)`), a link-density penalty
(`floor(linkDensity * 10)` once density exceeds `0.5`, with denominator
`textLength || 1`), and capped image, paragraph and heading bonuses. -/
def calculateNodeScore (n : DNode) : Int :=
  match tagOf n with
  | none => 0
  | some tag =>
    let classScore : Int :=
      (scoreClassNames n).foldl
        (fun acc c => acc + posClassWeight c + negClassWeight c) 0
    let textLength := calculateTextLengthNode n
    let linkLength := firstLinkLength n
    let den := if textLength = 0 then 1 else textLength
    let densityPenalty : Int :=
      if jsHalfLt linkLength den then ((10 * linkLength) / den : Nat) else 0
    let imageCount := countDesc n [Sel.tag "img"]
    let paragraphCount := countDesc n [Sel.tag "p"]
    let headingCount := countDesc n headingSels
    tagWeight tag + classScore +
      (min (textLength / 100) 10 : Nat) - densityPenalty +
      (min (imageCount * 2) 8 : Nat) + (min paragraphCount 5 : Nat) +
      (min (headingCount * 2) 6 : Nat)

/-- Tags excluded by the enhanced `isValidContent` (line 471). -/
def excludeTagsEnh : List String :=
  ["nav", "header", "footer", "aside", "style", "script", "meta", "link"]

/-- Embedding of the enhanced `isValidContent(element)` (lines 462–496):
tag exclusion, then `calculateNodeScore(node) ≥ minScore`, then text
length, then first-link density. -/
def isValidContentEnh (opts : XOpts) (n : DNode) : Bool :=
  match tagOf n with
  | none => false
  | some tag =>
    if excludeTagsEnh.contains tag then false
    else if calculateNodeScore n < opts.minScore then false
    else
      let textLength := calculateTextLengthNode n
      if textLength < opts.minTextLength then false
      else if jsHalfLt (firstLinkLength n) textLength then false
      else true

/-! ## Apparatus for the link-density bounds

To bound `calculateLinkDensity` the subtree text is flattened to a list
of characters tagged with a flag saying whether the character lies under
an `<a>` descendant. -/

mutual

/-- Characters of a subtree tagged with link membership: an element
passes `inA || tag = "a"` down to its children. -/
def taggedChars (inA : Bool) : DNode → List (Char × Bool)
  | .text d => d.toList.map (fun c => (c, inA))
  | .elem t _ cs => taggedCharsList (inA || t = "a") cs

/-- Forest version of `taggedChars`. -/
def taggedCharsList (inA : Bool) : List DNode → List (Char × Bool)
  | [] => []
  | n :: ns => taggedChars inA n ++ taggedCharsList inA ns

end

/-- Tagged characters of a node viewed as a query root: as with
`$node.find('a')`, the node's own tag does not count as a link. -/
def rootTagged : DNode → List (Char × Bool)
  | .text d => d.toList.map (fun c => (c, false))
  | .elem _ _ cs => taggedCharsList false cs

/-- Is the node an `a` element? -/
def isATag (n : DNode) : Bool := tagOf n = some "a"

/-- No `a` element of the subtree (the node included) has an `a`
descendant of its own.  HTML parsing guarantees this for documents
produced by `cheerio.load`: the HTML5 parser closes an open `<a>` when a
new one starts. -/
def noNestedA (n : DNode) : Bool :=
  (subElems n).all (fun m => !isATag m || (findLinks m).isEmpty)

/-! ## Concrete documents used by the closed theorems -/

/-- A `td` with 30 characters of plain text and no links. -/
def exTdLong : DNode := .elem "td" [] [.text (String.mk (List.replicate 30 'a'))]

/-- A `div.post` with 15 characters of text. -/
def exDivPost : DNode := .elem "div" [("class", "post")] [.text "abcdefghijklmno"]

/-- Body containing only `exDivPost`. -/
def exBody3 : DNode := .elem "body" [] [exDivPost]

/-- Document for the retry-threshold claim. -/
def exDoc3 : DNode := .elem "html" [] [exBody3]

/-- Options with a `retryLength` strictly below the text length of
`exDivPost`, which in turn is below `minTextLength`. -/
def opts3 : XOpts :=
  { minTextLength := 25, retryLength := 10, includeComments := false, minScore := 20 }

/-- Document with title tag `Alpha Beta` and heading `Alpha Gamma`. -/
def exDocTitle : DNode :=
  .elem "html" []
    [.elem "head" [] [.elem "title" [] [.text "Alpha Beta"]],
     .elem "body" [] [.elem "h1" [] [.text "Alpha Gamma"]]]

/-- A `div` whose only child is an `img`. -/
def exDivImg : DNode := .elem "div" [] [.elem "img" [("src", "x.png")] []]

/-- Document for the cleaner-idempotence claim. -/
def exDoc6 : DNode := .elem "html" [] [.elem "body" [] [exDivImg]]

/-- The value of one cleaning pass over `exDoc6`: the `img` leaf is
gone, the `div` kept. -/
def exDoc6Once : DNode := .elem "html" [] [.elem "body" [] [.elem "div" [] []]]

/-- A document without a `#img-content` element. -/
def exDocWx : DNode := .elem "html" [] [.elem "body" [] [.elem "p" [] [.text "hello"]]]

/-- A document with a short-text `div.sidebar` that the noise pass
drops. -/
def exDocSidebar : DNode :=
  .elem "html" [] [.elem "body" [] [.elem "div" [("class", "sidebar")] [.text "hi"]]]

/-- A node with one link (`a` holding `x`) and further text. -/
def exLinkNode : DNode :=
  .elem "div" [] [.elem "a" [("href", "h")] [.text "x"], .text " yz"]

end MCE

namespace MCE

/-! ## Helper lemmas -/

/-- One split step never returns an empty piece list when fed one. -/
theorem jsSplitWsCons_ne_nil (c : Char) (nw : Option Bool)
    {done : List (List Char)} (h : done ≠ []) : jsSplitWsCons c nw done ≠ [] := by
  unfold jsSplitWsCons
  by_cases hc : jsWs c
  · rw [if_pos hc]
    match nw with
    | some true => exact h
    | some false => simp
    | none => simp
  · rw [if_neg hc]
    match done with
    | [] => simp
    | p :: ps => simp

/-- `split(/\s+/)` never yields an empty piece list. -/
theorem jsSplitWs_ne_nil : ∀ l : List Char, jsSplitWs l ≠ []
  | [] => by simp [jsSplitWs]
  | c :: rest => by
    unfold jsSplitWs
    exact jsSplitWsCons_ne_nil c _ (jsSplitWs_ne_nil rest)

/-- Membership after stable descending insertion. -/
theorem mem_insertDescBy {key : String → ℚ} {x a : String} :
    ∀ {l : List String}, a ∈ insertDescBy key x l → a = x ∨ a ∈ l
  | [], h => by simpa [insertDescBy] using h
  | y :: ys, h => by
    unfold insertDescBy at h
    by_cases hk : key y < key x
    · simpa [hk] using h
    · rw [if_neg hk] at h
      rcases List.mem_cons.mp h with h | h
      · exact Or.inr (h ▸ List.mem_cons_self y ys)
      · rcases mem_insertDescBy h with h | h
        · exact Or.inl h
        · exact Or.inr (List.mem_cons_of_mem _ h)

/-- Stable descending insertion grows the length by one. -/
theorem length_insertDescBy (key : String → ℚ) (x : String) :
    ∀ l : List String, (insertDescBy key x l).length = l.length + 1
  | [] => by simp [insertDescBy]
  | y :: ys => by
    unfold insertDescBy
    by_cases hk : key y < key x
    · simp [hk]
    · simp [hk, length_insertDescBy key x ys]

/-- Membership through the left-to-right insertion fold: everything in
the result came from the accumulator or from the remaining input. -/
theorem mem_foldl_insertDescBy {key : String → ℚ} {a : String} :
    ∀ (l acc : List String),
      a ∈ l.foldl (fun r x => insertDescBy key x r) acc → a ∈ acc ∨ a ∈ l
  | [], _, h => Or.inl h
  | x :: xs, acc, h => by
    rcases mem_foldl_insertDescBy xs (insertDescBy key x acc) h with h | h
    · rcases mem_insertDescBy h with h | h
      · exact Or.inr (h ▸ List.mem_cons_self x xs)
      · exact Or.inl h
    · exact Or.inr (List.mem_cons_of_mem _ h)

/-- The stable descending sort permutes, in particular preserves
membership. -/
theorem mem_sortDescBy {key : String → ℚ} {a : String} {l : List String}
    (h : a ∈ sortDescBy key l) : a ∈ l := by
  rcases mem_foldl_insertDescBy l [] h with h | h
  · exact absurd h (List.not_mem_nil a)
  · exact h

/-- The left-to-right insertion fold adds the input length to the
accumulator length. -/
theorem length_foldl_insertDescBy (key : String → ℚ) :
    ∀ (l acc : List String),
      (l.foldl (fun r x => insertDescBy key x r) acc).length =
        acc.length + l.length
  | [], acc => by simp
  | x :: xs, acc => by
    rw [List.foldl_cons, length_foldl_insertDescBy key xs (insertDescBy key x acc),
        length_insertDescBy]
    simp only [List.length_cons]
    omega

/-- The stable descending sort preserves length. -/
theorem length_sortDescBy (key : String → ℚ) (l : List String) :
    (sortDescBy key l).length = l.length := by
  have := length_foldl_insertDescBy key l []
  simpa [sortDescBy] using this

/-- The sorted list of a non-empty list is non-empty. -/
theorem sortDescBy_ne_nil {key : String → ℚ} {l : List String} (h : l ≠ []) :
    sortDescBy key l ≠ [] := by
  intro hc
  apply h
  have := length_sortDescBy key l
  rw [hc] at this
  exact List.length_eq_zero.mp this.symm

/-- `headD` of a non-empty list is a member. -/
theorem headD_mem {l : List String} (h : l ≠ []) (d : String) : l.headD d ∈ l := by
  cases l with
  | nil => exact absurd rfl h
  | cons x xs => exact List.mem_cons_self x xs

/-- A freshly constructed extractor state is well formed. -/
theorem wfState_initState : WFState initState := by
  intro e he
  simp [initState] at he

/-- Well-formedness of the extractor state is preserved by a call. -/
theorem wfState_after (opts : XOpts) (custom : List Sel) (σ : XState)
    (doc : DNode) (h : WFState σ) : WFState (extractCall opts custom σ doc).2 := by
  intro e he
  simp only [extractCall, List.mem_append] at he
  rcases he with he | he
  · exact Nat.lt_succ_of_lt (h e he)
  · rcases List.mem_map.mp he with ⟨n, _, rfl⟩
    exact Nat.lt_succ_self _

/-- On a well-formed state the persisted `droppedNodes` membership test
never fires: every persisted entry was tagged by an earlier call. -/
theorem staleHas_eq_false (σ : XState) (h : WFState σ) :
    (fun n : DNode => decide ((σ.calls, n) ∈ σ.dropped)) =
      fun _ : DNode => false := by
  funext n
  simp only [decide_eq_false_iff_not]
  intro hm
  exact absurd (h _ hm) (Nat.lt_irrefl _)

/-- The result of a call on a well-formed state equals the pure
pipeline result. -/
theorem extractCall_fst_pure (opts : XOpts) (custom : List Sel)
    (σ : XState) (doc : DNode) (h : WFState σ) :
    (extractCall opts custom σ doc).1 =
      (baseExtract opts custom (fun _ => false) doc).1 := by
  unfold extractCall
  rw [staleHas_eq_false σ h]

/-! ## Claim theorems -/

/-- C10: `calculateTextLength` returns 0 for the empty string, and for
every non-empty string — whitespace-only strings included — it returns
at least 1, because the `split(/\s+/)` piece count is never zero. -/
theorem claim10_textLength_positive (s : String) :
    (s = "" → calculateTextLength s = 0) ∧
    (s ≠ "" → 1 ≤ calculateTextLength s) := by
  constructor
  · intro h
    simp [calculateTextLength, h]
  · intro h
    simp only [calculateTextLength, if_neg h]
    have h1 : jsSplitWs (collapseNl (collapseWs s.toList)) ≠ [] :=
      jsSplitWs_ne_nil _
    have h2 : 1 ≤ (jsSplitWs (collapseNl (collapseWs s.toList))).length :=
      Nat.one_le_iff_ne_zero.mpr (fun hz => h1 (List.length_eq_zero.mp hz))
    omega

/-- Witness for C10: the lone-space string has positive count, the
empty string counts zero. -/
theorem claim10_witness :
    calculateTextLength "" = 0 ∧ 1 ≤ calculateTextLength " " :=
  ⟨(claim10_textLength_positive "").1 rfl,
   (claim10_textLength_positive " ").2 (by decide)⟩

/-- C5 counterexample: a URL whose only forum-like pattern is `topic`
is dispatched to the article extractor, while the claimed rule sends it
to the forum extractor. -/
theorem claim5_counterexample :
    getExtractorByUrl "https://example.com/topic/123" = WebsiteType.article ∧
    claimDispatch "https://example.com/topic/123" = WebsiteType.forum := by
  decide

/-- C5 amended: the dispatch tests only `mp.weixin.qq.com`, `forum`,
`bbs` and `thread`; `topic`, `tid=`, `pid=` and `fid=` play no role. -/
theorem claim5_amended_dispatch (url : String) :
    getExtractorByUrl url = amendedDispatch url := by
  unfold getExtractorByUrl amendedDispatch
  cases h1 : jsIncludes url "mp.weixin.qq.com" <;>
    cases h2 : jsIncludes url "forum" <;>
      cases h3 : jsIncludes url "bbs" <;>
        cases h4 : jsIncludes url "thread" <;>
          simp [h1, h2, h3, h4]

/-- C3 counterexample: in `exDoc3` no node reaches `minTextLength`, the
`div.post` candidate sits in the claimed retry window
(`retryLength ≤ textLength < minTextLength`), yet selection never
accepts it on any second pass: the body is returned. -/
theorem claim3_counterexample :
    ((subElems exDoc3).all
      (fun n => calculateTextLengthNode n < opts3.minTextLength)) = true ∧
    opts3.retryLength ≤ calculateTextLengthNode exDivPost ∧
    calculateTextLengthNode exDivPost < opts3.minTextLength ∧
    extractMainContent opts3 [] exDoc3 = some exBody3 ∧
    exBody3 ≠ exDivPost := by
  decide

/-- `isValidContent` never reads `retryLength`. -/
theorem isValidContent_retry (a r rp : Nat) (b : Bool) (m : Int) (n : DNode) :
    isValidContent ⟨a, r, b, m⟩ n = isValidContent ⟨a, rp, b, m⟩ n := rfl

/-- Selector scanning never reads `retryLength`. -/
theorem firstValid_retry (a r rp : Nat) (b : Bool) (m : Int) (doc : DNode) :
    ∀ sels : List Sel,
      firstValidBySelectors ⟨a, r, b, m⟩ doc sels =
        firstValidBySelectors ⟨a, rp, b, m⟩ doc sels
  | [] => rfl
  | s :: rest => by
    unfold firstValidBySelectors
    cases queryFirst doc s with
    | none => exact firstValid_retry a r rp b m doc rest
    | some e =>
      simp only []
      rw [isValidContent_retry a r rp b m e]
      cases isValidContentEnhAux : isValidContent ⟨a, rp, b, m⟩ e with
      | true => simp
      | false => simp [firstValid_retry a r rp b m doc rest]

/-- C3 amended: `retryLength` is configuration only — no code path
reads it, so validation and selection are unchanged under any
`retryLength` value; there is no second validation pass with a relaxed
threshold. -/
theorem claim3_retryLength_never_read (a r rp : Nat) (b : Bool) (m : Int)
    (custom : List Sel) (doc n : DNode) :
    isValidContent ⟨a, r, b, m⟩ n = isValidContent ⟨a, rp, b, m⟩ n ∧
    extractMainContent ⟨a, r, b, m⟩ custom doc =
      extractMainContent ⟨a, rp, b, m⟩ custom doc := by
  refine ⟨rfl, ?_⟩
  unfold extractMainContent
  rw [firstValid_retry a r rp b m doc custom,
      firstValid_retry a r rp b m doc contentSelectors]

/-- C4 counterexample: a long-text `td` passes the base
`isValidContent` although its score (1) is far below the default
`minScore` (20) — the base validator never checks the score. -/
theorem claim4_counterexample :
    isValidContent defaultOpts exTdLong = true ∧
    calculateNodeScore exTdLong < defaultOpts.minScore := by
  decide

/-- C4 amended: the enhanced validator does enforce the score bound —
any node scoring below `minScore` is rejected. -/
theorem claim4_amended_minScore (opts : XOpts) (n : DNode)
    (h : calculateNodeScore n < opts.minScore) :
    isValidContentEnh opts n = false := by
  unfold isValidContentEnh
  cases ht : tagOf n with
  | none => rfl
  | some tag =>
    simp only []
    by_cases hc : excludeTagsEnh.contains tag = true
    · rw [if_pos hc]
    · rw [if_neg hc, if_pos h]

/-- Witness for C4: the low-scoring `td` is rejected by the enhanced
validator. -/
theorem claim4_witness : isValidContentEnh defaultOpts exTdLong = false :=
  claim4_amended_minScore defaultOpts exTdLong (by decide)

/-- C1 counterexample: the weixin variant's `extract` throws on any
document without a `#img-content` element, so not every variant returns
a result for every document. -/
theorem claim1_counterexample :
    weixinExtract exDocWx = Except.error "无法找到微信文章内容区域" := rfl

/-- C1 amended: the base Content Selector is total — when no custom or
generic selector yields a node passing `isValidContent` it returns the
`body` query, and it returns a node whenever the document has a body;
the weixin variant, by contrast, throws when `#img-content` is
missing. -/
theorem claim1_amended_fallback :
    (∀ (opts : XOpts) (custom : List Sel) (doc : DNode),
      firstValidBySelectors opts doc custom = none →
      firstValidBySelectors opts doc contentSelectors = none →
      extractMainContent opts custom doc = queryFirst doc (Sel.tag "body")) ∧
    (∀ (opts : XOpts) (custom : List Sel) (doc : DNode),
      (queryFirst doc (Sel.tag "body")).isSome →
      (extractMainContent opts custom doc).isSome) := by
  constructor
  · intro opts custom doc h1 h2
    unfold extractMainContent
    rw [h1, h2]
  · intro opts custom doc hb
    unfold extractMainContent
    cases h1 : firstValidBySelectors opts doc custom with
    | some e => rfl
    | none =>
      cases h2 : firstValidBySelectors opts doc contentSelectors with
      | some e => rfl
      | none => exact hb

/-- Witness for C1: on `exDocWx` every selector fails and the body is
returned. -/
theorem claim1_witness :
    extractMainContent defaultOpts [] exDocWx =
      queryFirst exDocWx (Sel.tag "body") ∧
    (extractMainContent defaultOpts [] exDocWx).isSome = true :=
  ⟨claim1_amended_fallback.1 defaultOpts [] exDocWx (by decide) (by decide),
   claim1_amended_fallback.2 defaultOpts [] exDocWx (by decide)⟩

/-- C2 counterexample: with title tag `Alpha Beta` and heading
`Alpha Gamma`, the resolver returns the heading itself, not
`longestCommonSubstring(bestHeading, titleTagText)` (which is
`Alpha␣`). -/
theorem claim2_counterexample :
    titleExtract exDocTitle = "Alpha Gamma" ∧
    titleExtract exDocTitle ≠
      getLongestCommonSubstring "Alpha Gamma" "Alpha Beta" := by
  decide

/-- C6 counterexample: the cleaner is not idempotent — cleaning
`exDoc6` (a `div` whose only child is an `img`) keeps the `div` but
drops the `img` leaf, and a second cleaning pass removes the rest of
the document. -/
theorem claim6_counterexample :
    cleanDocument defaultOpts exDoc6 = some exDoc6Once ∧
    cleanDocument defaultOpts exDoc6Once = none := by
  decide

/-- C9 counterexample: extractor state does persist across calls — one
call on `exDocSidebar` leaves a non-empty `droppedNodes` set behind. -/
theorem claim9_counterexample :
    (extractCall defaultOpts [] initState exDocSidebar).2 ≠ initState := by
  decide

/-- C9 amended: repeated extraction is deterministic — although the
`droppedNodes` set and call counter persist in the instance, a later
call on a well-formed state never consults the persisted entries (node
identities are fresh per parse), so calling `extract` twice in
succession on the same document returns equal results. -/
theorem claim9_amended_deterministic (opts : XOpts) (custom : List Sel)
    (σ : XState) (doc : DNode) (h : WFState σ) :
    (extractCall opts custom (extractCall opts custom σ doc).2 doc).1 =
      (extractCall opts custom σ doc).1 := by
  rw [extractCall_fst_pure _ _ _ _ (wfState_after _ _ _ _ h),
      extractCall_fst_pure _ _ _ _ h]

/-- Intersection count symmetry for duplicate-free word lists. -/
theorem filter_contains_length_symm {w1 w2 : List String}
    (h1 : w1.Nodup) (h2 : w2.Nodup) :
    (w1.filter (fun w => w2.contains w)).length =
      (w2.filter (fun w => w1.contains w)).length := by
  have e1 : (w1.filter (fun w => w2.contains w)).toFinset =
      w1.toFinset ∩ w2.toFinset := by
    ext a
    simp [List.mem_filter]
  have e2 : (w2.filter (fun w => w1.contains w)).toFinset =
      w2.toFinset ∩ w1.toFinset := by
    ext a
    simp [List.mem_filter]
  have c1 := List.toFinset_card_of_nodup (h1.filter (fun w => w2.contains w))
  have c2 := List.toFinset_card_of_nodup (h2.filter (fun w => w1.contains w))
  rw [e1] at c1
  rw [e2] at c2
  rw [← c1, ← c2, Finset.inter_comm]

/-- C7 counterexample: with a repeated word the similarity is not
symmetric: `similarity("a a", "a b") = 1` but
`similarity("a b", "a a") = 1/2`. -/
theorem claim7_counterexample :
    calculateSimilarity "a a" "a b" ≠ calculateSimilarity "a b" "a a" := by
  have h1 : wordsOf "a a" = ["a", "a"] := by decide
  have h2 : wordsOf "a b" = ["a", "b"] := by decide
  have h3 : (["a", "a"] : List String).filter
      (fun w => (["a", "b"] : List String).contains w) = ["a", "a"] := by decide
  have h4 : (["a", "b"] : List String).filter
      (fun w => (["a", "a"] : List String).contains w) = ["a"] := by decide
  have e1 : calculateSimilarity "a a" "a b" = 1 := by
    simp only [calculateSimilarity, h1, h2, h3,
      if_neg (by decide : ¬("a a" = "a b")), List.length_cons, List.length_nil]
    norm_num
    exact ⟨by decide, by decide⟩
  have e2 : calculateSimilarity "a b" "a a" = 1 / 2 := by
    simp only [calculateSimilarity, h1, h2, h4,
      if_neg (by decide : ¬("a b" = "a a")), List.length_cons, List.length_nil]
    norm_num
    exact ⟨by decide, by decide⟩
  rw [e1, e2]
  norm_num

/-- C7 amended: the similarity is symmetric on strings whose word lists
are duplicate-free; repeated words break symmetry because common words
are counted with the first argument's multiplicities. -/
theorem claim7_amended_symm (s1 s2 : String)
    (h1 : (wordsOf s1).Nodup) (h2 : (wordsOf s2).Nodup) :
    calculateSimilarity s1 s2 = calculateSimilarity s2 s1 := by
  unfold calculateSimilarity
  by_cases he : s1 = s2
  · rw [if_pos he, if_pos he.symm]
  · have hne2 : ¬(s2 = s1) := fun hx => he hx.symm
    by_cases hz : s1 = "" ∨ s2 = ""
    · have hz1 : (decide (s1 = "") || decide (s2 = "")) = true := by
        rcases hz with h | h <;> simp [h]
      have hz2 : (decide (s2 = "") || decide (s1 = "")) = true := by
        rcases hz with h | h <;> simp [h]
      rw [if_neg he, if_pos hz1, if_neg hne2, if_pos hz2]
    · push_neg at hz
      have hz1 : ¬((decide (s1 = "") || decide (s2 = "")) = true) := by
        simp [hz.1, hz.2]
      have hz2 : ¬((decide (s2 = "") || decide (s1 = "")) = true) := by
        simp [hz.1, hz.2]
      rw [if_neg he, if_neg hz1, if_neg hne2, if_neg hz2]
      simp only []
      rw [filter_contains_length_symm h1 h2, add_comm ((wordsOf s1).length : ℚ)]

/-- Witness for C7: symmetry at the duplicate-free pair
`("a b", "b c")`. -/
theorem claim7_witness :
    calculateSimilarity "a b" "b c" = calculateSimilarity "b c" "a b" :=
  claim7_amended_symm "a b" "b c" (by decide) (by decide)

/-- C2 amended: when no meta tag yields a title and both a page title
and headings exist, the resolver returns the cleaned best-similarity
heading itself — not a longest common substring with the title-tag
text. -/
theorem claim2_amended_best_heading (doc : DNode)
    (h1 : extractFromMeta doc metaSelectors = "")
    (h2 : extractFromTitle doc ≠ "")
    (h3 : headingsOf doc ≠ []) :
    titleExtract doc = cleanTitle
      ((sortDescBy (fun h => calculateSimilarity h (extractFromTitle doc))
        (headingsOf doc)).headD "") := by
  have hb : ((sortDescBy (fun h => calculateSimilarity h (extractFromTitle doc))
      (headingsOf doc)).headD "") ∈ headingsOf doc :=
    mem_sortDescBy (headD_mem (sortDescBy_ne_nil h3) "")
  have hne : ((sortDescBy (fun h => calculateSimilarity h (extractFromTitle doc))
      (headingsOf doc)).headD "") ≠ "" := by
    unfold headingsOf at hb
    have := List.of_mem_filter hb
    simpa [ headingsOf] using this
  have hh : extractFromHeadings doc =
      (sortDescBy (fun h => calculateSimilarity h (extractFromTitle doc))
        (headingsOf doc)).headD "" := by
    unfold extractFromHeadings
    simp only []
    rw [if_neg (by simp [List.isEmpty_iff, h3]), if_pos h2]
  unfold titleExtract
  simp only []
  rw [h1, if_neg (by simp), hh, if_pos hne]

/-- Witness for C2: the amended description evaluated on
`exDocTitle`. -/
theorem claim2_witness :
    titleExtract exDocTitle = cleanTitle
      ((sortDescBy (fun h => calculateSimilarity h (extractFromTitle exDocTitle))
        (headingsOf exDocTitle)).headD "") :=
  claim2_amended_best_heading exDocTitle (by decide) (by decide) (by decide)

mutual

/-- Idempotence of unconditional subtree removal for conditions that
only look at a node's own tag and attributes. -/
theorem pruneIf_local_idem (cond : DNode → Bool)
    (hl : ∀ t a cs csp, cond (.elem t a cs) = cond (.elem t a csp)) :
    ∀ d : DNode, (pruneIf cond d).bind (pruneIf cond) = pruneIf cond d
  | .text s => by simp [pruneIf]
  | .elem t a cs => by
    by_cases hc : cond (.elem t a cs) = true
    · simp [pruneIf, hc]
    · have hcf : cond (.elem t a cs) = false := Bool.not_eq_true _ ▸ eq_false_of_ne_true hc
      have hc2 : cond (.elem t a (pruneIfList cond cs)) = false := by
        rw [hl t a _ cs]
        exact hcf
      simp [pruneIf, hcf, hc2, pruneIfList_local_idem cond hl cs]

/-- Forest version of `pruneIf_local_idem`. -/
theorem pruneIfList_local_idem (cond : DNode → Bool)
    (hl : ∀ t a cs csp, cond (.elem t a cs) = cond (.elem t a csp)) :
    ∀ cs : List DNode, pruneIfList cond (pruneIfList cond cs) = pruneIfList cond cs
  | [] => by simp [pruneIfList]
  | n :: ns => by
    cases hp : pruneIf cond n with
    | none => simp [pruneIfList, hp, pruneIfList_local_idem cond hl ns]
    | some m =>
      have hm : pruneIf cond m = some m := by
        have hidem := pruneIf_local_idem cond hl n
        rw [hp] at hidem
        simpa using hidem
      simp [pruneIfList, hp, hm, pruneIfList_local_idem cond hl ns]

end

/-- C6 amended: the full cleaning pass is not idempotent (see the
counterexample: empty-node cleanup removes media leaves, so a second
pass removes their newly emptied ancestors), but the unconditional
hidden-element removal step — whose condition depends only on a node's
own attributes — is idempotent. -/
theorem claim6_amended_hidden_idem (d : DNode) :
    (pruneIf (matchesAny hiddenSels) d).bind (pruneIf (matchesAny hiddenSels)) =
      pruneIf (matchesAny hiddenSels) d :=
  pruneIf_local_idem (matchesAny hiddenSels) (fun _ _ _ _ => rfl) d

/-- Dropping a prefix by a predicate preserves the sublist relation. -/
theorem sublist_dropWhile (p : Char → Bool) {l1 l2 : List Char}
    (h : List.Sublist l1 l2) :
    List.Sublist (l1.dropWhile p) (l2.dropWhile p) := by
  induction h with
  | slnil => simp
  | cons a h ih =>
    rw [List.dropWhile_cons]
    by_cases hp : p a = true
    · rw [if_pos hp]
      exact ih
    · rw [if_neg hp]
      exact ((List.dropWhile_sublist _).trans h).cons a
  | cons₂ a h ih =>
    rw [List.dropWhile_cons, List.dropWhile_cons]
    by_cases hp : p a = true
    · rw [if_pos hp, if_pos hp]
      exact ih
    · rw [if_neg hp, if_neg hp]
      exact h.cons₂ a

/-- Trimming preserves the sublist relation. -/
theorem trimChars_sublist {l1 l2 : List Char} (h : List.Sublist l1 l2) :
    List.Sublist (trimChars l1) (trimChars l2) := by
  unfold trimChars
  exact (sublist_dropWhile jsWs (sublist_dropWhile jsWs h).reverse).reverse

mutual

/-- Forgetting the link flags recovers the subtree text. -/
theorem taggedChars_fst (inA : Bool) :
    ∀ n : DNode, (taggedChars inA n).map Prod.fst = nodeTextChars n
  | .text d => by
    simp [taggedChars, nodeTextChars, List.map_map, Function.comp_def]
  | .elem t a cs => by
    simp only [taggedChars, nodeTextChars]
    exact taggedCharsList_fst _ cs

/-- Forest version of `taggedChars_fst`. -/
theorem taggedCharsList_fst (inA : Bool) :
    ∀ cs : List DNode, (taggedCharsList inA cs).map Prod.fst = nodesTextChars cs
  | [] => by simp [taggedCharsList, nodesTextChars]
  | n :: ns => by
    simp only [taggedCharsList, nodesTextChars, List.map_append]
    rw [taggedChars_fst inA n, taggedCharsList_fst inA ns]

end

/-- Forgetting the flags of a root-tagged node recovers its text. -/
theorem rootTagged_fst : ∀ n : DNode, (rootTagged n).map Prod.fst = nodeTextChars n
  | .text d => by
    simp [rootTagged, nodeTextChars, List.map_map, Function.comp_def]
  | .elem t a cs => by
    simp only [rootTagged, nodeTextChars]
    exact taggedCharsList_fst false cs

mutual

/-- Below a link everything is flagged: filtering keeps all characters. -/
theorem taggedChars_true_filter :
    ∀ n : DNode,
      ((taggedChars true n).filter (fun p => p.2)).map Prod.fst = nodeTextChars n
  | .text d => by
    simp [taggedChars, nodeTextChars, List.filter_map, Function.comp_def,
      List.map_map]
  | .elem t a cs => by
    simp only [taggedChars, nodeTextChars, Bool.true_or]
    exact taggedCharsList_true_filter cs

/-- Forest version of `taggedChars_true_filter`. -/
theorem taggedCharsList_true_filter :
    ∀ cs : List DNode,
      ((taggedCharsList true cs).filter (fun p => p.2)).map Prod.fst =
        nodesTextChars cs
  | [] => by simp [taggedCharsList, nodesTextChars]
  | n :: ns => by
    simp only [taggedCharsList, nodesTextChars, List.filter_append, List.map_append]
    rw [taggedChars_true_filter n, taggedCharsList_true_filter ns]

end

/-- `matchesSel` for the `a` tag selector agrees with `isATag`. -/
theorem matchesSel_tagA : ∀ m : DNode, matchesSel (Sel.tag "a") m = isATag m
  | .text d => by simp [matchesSel, isATag, tagOf]
  | .elem t a cs => by simp [matchesSel, isATag, tagOf]

/-- `selText` distributes over list append. -/
theorem selText_append (l1 l2 : List DNode) :
    selText (l1 ++ l2) = selText l1 ++ selText l2 := by
  simp [selText]

mutual

/-- Bridge lemma: below a node with no nested links, the flagged
characters are exactly the concatenated text of its `a`-element
descendants, in document order. -/
theorem taggedChars_false_filter :
    ∀ n : DNode,
      (∀ m ∈ subElems n, isATag m = true → findLinks m = []) →
      ((taggedChars false n).filter (fun p => p.2)).map Prod.fst =
        selText ((subElems n).filter isATag)
  | .text d, _ => by simp [taggedChars, subElems, selText, List.filter_map]
  | .elem t a cs, h => by
    by_cases ht : t = "a"
    · subst ht
      have hself : findLinks (DNode.elem "a" a cs) = [] :=
        h _ (by simp [subElems]) (by simp [isATag, tagOf])
      have hrest : (subElemsList cs).filter isATag = [] := by
        have heq : findLinks (DNode.elem "a" a cs) =
            (subElemsList cs).filter isATag := by
          unfold findLinks findAll descElems
          exact List.filter_congr (fun m _ => matchesSel_tagA m)
        rw [← heq, hself]
      simp only [taggedChars, subElems, decide_True, Bool.false_or]
      rw [taggedCharsList_true_filter cs]
      rw [List.filter_cons, if_pos (by simp [isATag, tagOf]), hrest]
      simp [selText, nodeTextChars]
    · simp only [taggedChars, subElems, Bool.false_or]
      rw [show (decide (t = "a")) = false by simp [ht]]
      rw [taggedCharsList_false_filter cs
        (fun m hm hma => h m (by simp only [subElems]; exact List.mem_cons_of_mem _ hm) hma)]
      rw [List.filter_cons, if_neg (by simp [isATag, tagOf, ht])]

/-- Forest version of `taggedChars_false_filter`. -/
theorem taggedCharsList_false_filter :
    ∀ cs : List DNode,
      (∀ m ∈ subElemsList cs, isATag m = true → findLinks m = []) →
      ((taggedCharsList false cs).filter (fun p => p.2)).map Prod.fst =
        selText ((subElemsList cs).filter isATag)
  | [], _ => rfl
  | n :: ns, h => by
    simp only [taggedCharsList, subElemsList, List.filter_append, List.map_append,
      selText_append]
    rw [taggedChars_false_filter n
      (fun m hm hma =>
        h m (by simp only [subElemsList]; exact List.mem_append_left _ hm) hma)]
    rw [taggedCharsList_false_filter ns
      (fun m hm hma =>
        h m (by simp only [subElemsList]; exact List.mem_append_right _ hm) hma)]

end

/-- Under the no-nested-links invariant guaranteed by HTML parsing, the
concatenated text of all `<a>` descendants is the flagged part of the
node's character stream. -/
theorem selText_findLinks_eq (n : DNode) (h : noNestedA n = true) :
    selText (findLinks n) =
      ((rootTagged n).filter (fun p => p.2)).map Prod.fst := by
  have hprop : ∀ m ∈ subElems n, isATag m = true → findLinks m = [] := by
    intro m hm hma
    have hall := (List.all_eq_true.mp h) m hm
    rw [hma] at hall
    simpa [List.isEmpty_iff] using hall
  cases n with
  | text d =>
    simp [findLinks, findAll, descElems, rootTagged, selText, List.filter_map]
  | elem t a cs =>
    have hforest : ∀ m ∈ subElemsList cs, isATag m = true → findLinks m = [] := by
      intro m hm hma
      exact hprop m (by simp only [subElems]; exact List.mem_cons_of_mem _ hm) hma
    have h1 : findLinks (DNode.elem t a cs) = (subElemsList cs).filter isATag := by
      unfold findLinks findAll descElems
      exact List.filter_congr (fun m _ => matchesSel_tagA m)
    rw [h1]
    simp only [rootTagged]
    exact (taggedCharsList_false_filter cs hforest).symm

/-- The trimmed link text never outmeasures the trimmed node text. -/
theorem linkText_le_text (n : DNode) (h : noNestedA n = true) :
    (trimChars (selText (findLinks n))).length ≤
      (trimChars (nodeTextChars n)).length := by
  rw [selText_findLinks_eq n h]
  have hsub : List.Sublist (((rootTagged n).filter (fun p => p.2)).map Prod.fst)
      ((rootTagged n).map Prod.fst) :=
    (List.filter_sublist _).map _
  rw [rootTagged_fst n] at hsub
  exact (trimChars_sublist hsub).length_le

/-- C8: `calculateLinkDensity` is well defined and bounded — it is
nonnegative, never exceeds 1 (for documents without nested anchors, as
HTML parsing guarantees), is 0 for nodes without `<a>` descendants, and
is 0 for nodes without text (the division is guarded). -/
theorem claim8_linkDensity_bounds (n : DNode) (h : noNestedA n = true) :
    0 ≤ calculateLinkDensity n ∧ calculateLinkDensity n ≤ 1 ∧
    (findLinks n = [] → calculateLinkDensity n = 0) ∧
    (trimChars (nodeTextChars n) = [] → calculateLinkDensity n = 0) := by
  simp only [calculateLinkDensity]
  by_cases ht : (trimChars (nodeTextChars n)).isEmpty = true
  · simp [ht]
  · rw [if_neg ht]
    have hlen : 0 < (trimChars (nodeTextChars n)).length := by
      cases hl : trimChars (nodeTextChars n) with
      | nil => rw [hl] at ht; exact absurd rfl ht
      | cons c cs => simp [hl]
    have hnum := linkText_le_text n h
    refine ⟨?_, ?_, ?_, ?_⟩
    · positivity
    · rw [div_le_one (by exact_mod_cast hlen)]
      exact_mod_cast hnum
    · intro hlinks
      simp [hlinks, selText, trimChars]
    · intro htext
      rw [htext] at ht
      exact absurd rfl ht

/-- Witness for C8 at a node with one link and extra text. -/
theorem claim8_witness :
    0 ≤ calculateLinkDensity exLinkNode ∧ calculateLinkDensity exLinkNode ≤ 1 ∧
    (findLinks exLinkNode = [] → calculateLinkDensity exLinkNode = 0) ∧
    (trimChars (nodeTextChars exLinkNode) = [] →
      calculateLinkDensity exLinkNode = 0) :=
  claim8_linkDensity_bounds exLinkNode (by decide)

/-- Witness for C9: two successive calls on a fresh extractor agree on
`exDocSidebar`. -/
theorem claim9_witness :
    (extractCall defaultOpts []
        (extractCall defaultOpts [] initState exDocSidebar).2 exDocSidebar).1 =
      (extractCall defaultOpts [] initState exDocSidebar).1 :=
  claim9_amended_deterministic defaultOpts [] initState exDocSidebar
    (by intro e he; simp [initState] at he)

end MCE
